import Mathlib

/-!
Verification of the IssueHub request-time decision layer.

The repository's frontend (`frontend/src/App.tsx`, `frontend/src/api.ts`)
is embedded directly from source.  The backend decision layer (FastAPI
services: authorization gate, issue query planner, guardrail pipeline,
audit recorder) is not part of the available sources, so those components
are modelled from the specification, as indicated on each definition.
-/

namespace IssueHub

/-! ## Authorization Gate -/

/-- The two membership roles of the data model. -/
inductive Role
  | member
  | maintainer
deriving DecidableEq, Repr

/-- Action classes recognised by the Authorization Gate's policy table. -/
inductive Action
  | readResource
  | createIssue
  | addComment
  | editIssueCore
  | editIssueTriage
  | deleteIssue
  | manageMembers
  | changeOwnRole
deriving DecidableEq, Repr

/-- Ownership facts about the resource being acted on. -/
structure ResourceFacts where
  isReporter : Bool
  isAssignee : Bool
deriving DecidableEq, Repr

/-- Outcome of an authorization decision: allow, or deny with a
machine-readable reason code. -/
inductive Decision
  | allow
  | deny (reason : String)
deriving DecidableEq, Repr

/-- Modelled from the spec: the backend Authorization Gate's `decide`
function lives in the backend services, which are not among the available
sources; this definition transcribes the policy table of spec section 4.2.
Restricted fields (status, assignee) are gated on role alone; unrestricted
edits are gated on ownership or role; membership administration and role
changes require the maintainer role; absence of membership denies
everything. -/
def decide (role : Option Role) (action : Action) (facts : ResourceFacts) :
    Decision :=
  match role with
  | none => .deny "no_membership"
  | some .maintainer =>
    match action with
    | .changeOwnRole => .deny "insufficient_role"
    | _ => .allow
  | some .member =>
    match action with
    | .readResource => .allow
    | .createIssue => .allow
    | .addComment => .allow
    | .editIssueCore =>
      if facts.isReporter || facts.isAssignee then .allow
      else .deny "not_owner"
    | .editIssueTriage => .deny "insufficient_role"
    | .deleteIssue =>
      if facts.isReporter then .allow else .deny "not_owner"
    | .manageMembers => .deny "insufficient_role"
    | .changeOwnRole => .deny "insufficient_role"

/-- Claim C1: on an issue-update request touching the status or assignee
field, `decide` denies a caller of role member with reason
`insufficient_role` and allows a caller of role maintainer; in particular
a member who is the issue's reporter is still denied. -/
theorem decide_triage_member_denied_maintainer_allowed
    (facts : ResourceFacts) :
    decide (some Role.member) Action.editIssueTriage facts
        = Decision.deny "insufficient_role"
      ∧ decide (some Role.maintainer) Action.editIssueTriage facts
        = Decision.allow
      ∧ decide (some Role.member) Action.editIssueTriage
          ⟨true, false⟩ = Decision.deny "insufficient_role" :=
  ⟨rfl, rfl, rfl⟩

/-! ## Issue Query Planner -/

/-- Issue workflow states. -/
inductive Status
  | open_
  | in_progress
  | resolved
  | closed
deriving DecidableEq, Repr

/-- Issue priorities. -/
inductive Priority
  | low
  | medium
  | high
  | critical
deriving DecidableEq, Repr

/-- Wire encoding of a status, as used by the filter parameters. -/
def statusString : Status → String
  | .open_ => "open"
  | .in_progress => "in_progress"
  | .resolved => "resolved"
  | .closed => "closed"

/-- Wire encoding of a priority, as used by the filter parameters. -/
def priorityString : Priority → String
  | .low => "low"
  | .medium => "medium"
  | .high => "high"
  | .critical => "critical"

/-- Numeric rank of a priority, for ordering. -/
def priorityRank : Priority → Nat
  | .low => 0
  | .medium => 1
  | .high => 2
  | .critical => 3

/-- Numeric rank of a status, for ordering. -/
def statusRank : Status → Nat
  | .open_ => 0
  | .in_progress => 1
  | .resolved => 2
  | .closed => 3

/-- An issue record, as in the data model. -/
structure Issue where
  id : Nat
  projectId : Nat
  title : String
  description : String
  status : Status
  priority : Priority
  reporterId : Nat
  assigneeId : Option Nat
  createdAt : Nat
deriving DecidableEq, Repr

/-- Substring test on character lists: does `pat` occur contiguously in the
second argument? -/
def hasSubAux (pat : List Char) : List Char → Bool
  | [] => pat.isEmpty
  | c :: cs => pat.isPrefixOf (c :: cs) || hasSubAux pat cs

/-- Does `pat` occur as a contiguous substring of `hay`? -/
def containsSub (hay pat : String) : Bool :=
  hasSubAux pat.data hay.data

/-- Modelled from the spec: the planner's free-text filter, a
case-insensitive substring match of `q` against the title; the empty
string means no filter. -/
def qOk (q : String) (i : Issue) : Bool :=
  q = "" || containsSub i.title.toLower q.toLower

/-- Modelled from the spec: exact status match, empty = no filter. -/
def statusOk (s : String) (i : Issue) : Bool :=
  s = "" || statusString i.status = s

/-- Modelled from the spec: exact priority match, empty = no filter. -/
def priorityOk (p : String) (i : Issue) : Bool :=
  p = "" || priorityString i.priority = p

/-- Modelled from the spec: assignee filter; an empty parameter is "no
filter" (every issue passes), a non-empty parameter matches the decimal
encoding of the issue's assignee id, so an unassigned issue never matches
a non-empty value. -/
def assigneeOk (a : String) (i : Issue) : Bool :=
  a = "" ||
    (match i.assigneeId with
     | some u => toString u = a
     | none => false)

/-- A normalised query plan: visibility scope (visible project ids) plus
the recognised filter, sort and pagination parameters. -/
structure QueryPlan where
  scope : List Nat
  q : String
  status : String
  priority : String
  assignee : String
  sort : String
  limit : Nat
  offset : Nat
deriving DecidableEq, Repr

/-- Scope restriction: the issue's project must be visible. -/
def scopeOk (scope : List Nat) (i : Issue) : Bool :=
  scope.contains i.projectId

/-- Modelled from the spec: conjunctive application of scope restriction
and the four non-empty filters. -/
def matchesPlan (p : QueryPlan) (i : Issue) : Bool :=
  scopeOk p.scope i && qOk p.q i && statusOk p.status i &&
    priorityOk p.priority i && assigneeOk p.assignee i

/-- Modelled from the spec: the primary sort key of an issue under a given
`sort` parameter, as an integer so that the default `created_at`
descending order is "smaller key first". -/
def sortKey (s : String) (i : Issue) : Int :=
  if s = "priority" then (priorityRank i.priority : Int)
  else if s = "status" then (statusRank i.status : Int)
  else -(i.createdAt : Int)

/-- Modelled from the spec: the planner's result order — primary key from
the `sort` parameter, ties broken by `id` ascending. -/
def issueLe (s : String) (a b : Issue) : Bool :=
  Decidable.decide
    (sortKey s a < sortKey s b ∨ (sortKey s a = sortKey s b ∧ a.id ≤ b.id))

/-- The result order as a relation. -/
def issueRel (s : String) : Issue → Issue → Prop :=
  fun a b => issueLe s a b = true

instance (s : String) : DecidableRel (issueRel s) :=
  fun a b => inferInstanceAs (Decidable (issueLe s a b = true))

instance (s : String) : IsTotal Issue (issueRel s) where
  total a b := by
    simp only [issueRel, issueLe, decide_eq_true_eq]
    omega

instance (s : String) : IsTrans Issue (issueRel s) where
  trans a b c := by
    simp only [issueRel, issueLe, decide_eq_true_eq]
    omega

/-- Sorting step of the planner: stable sort of the filtered set by the
result order. -/
def sortIssues (s : String) (l : List Issue) : List Issue :=
  List.insertionSort (issueRel s) l

/-- Modelled from the spec: `apply(QueryPlan, issue_set)` — filter,
sort, then paginate; returns the page of items and the pre-pagination
total. -/
def apply (p : QueryPlan) (issues : List Issue) : List Issue × Nat :=
  let filtered := issues.filter (matchesPlan p)
  let sorted := sortIssues p.sort filtered
  ((sorted.drop p.offset).take p.limit, filtered.length)

/-- The sorting step is a permutation of its input. -/
lemma sortIssues_perm (s : String) (l : List Issue) :
    (sortIssues s l).Perm l :=
  List.perm_insertionSort (issueRel s) l

/-- The sorting step preserves length. -/
lemma sortIssues_length (s : String) (l : List Issue) :
    (sortIssues s l).length = l.length :=
  (sortIssues_perm s l).length_eq

/-- The sorting step produces a list sorted by the result order. -/
lemma sortIssues_sorted (s : String) (l : List Issue) :
    List.Sorted (issueRel s) (sortIssues s l) :=
  List.sorted_insertionSort (issueRel s) l

/-- The returned page is a sublist of the sorted filtered set. -/
lemma apply_items_sublist (p : QueryPlan) (issues : List Issue) :
    List.Sublist (apply p issues).1
      (sortIssues p.sort (issues.filter (matchesPlan p))) :=
  (List.take_sublist _ _).trans (List.drop_sublist _ _)

/-- Every returned item comes from the input issue set. -/
lemma mem_of_mem_apply_items {p : QueryPlan} {issues : List Issue}
    {a : Issue} (ha : a ∈ (apply p issues).1) : a ∈ issues := by
  have h1 := (apply_items_sublist p issues).subset ha
  have h2 := (sortIssues_perm p.sort (issues.filter (matchesPlan p))).mem_iff.mp h1
  exact (List.mem_filter.mp h2).1

/-- Claim C2: for every visibility scope, filter parameters and issue set,
`apply` returns a total equal to the number of issues satisfying the
conjunction of scope restriction and every non-empty filter, unchanged by
the limit and offset; the items are the slice `[offset, offset+limit)` of
the sorted filtered set; and an offset at or beyond the total yields empty
items with the total still correct, not an error. -/
theorem apply_pagination_contract (p : QueryPlan) (issues : List Issue) :
    (apply p issues).2 = (issues.filter (matchesPlan p)).length
      ∧ (∀ l o,
          (apply { p with limit := l, offset := o } issues).2
            = (apply p issues).2)
      ∧ (apply p issues).1.length
          = min p.limit ((apply p issues).2 - p.offset)
      ∧ (∀ k, k < p.limit →
          (apply p issues).1[k]? =
            (sortIssues p.sort (issues.filter (matchesPlan p)))[p.offset + k]?)
      ∧ ((apply p issues).2 ≤ p.offset → (apply p issues).1 = []) := by
  refine ⟨rfl, fun l o => rfl, ?_, ?_, ?_⟩
  · simp [apply, List.length_take, List.length_drop, sortIssues_length]
  · intro k hk
    show (((sortIssues p.sort (issues.filter (matchesPlan p))).drop
        p.offset).take p.limit)[k]? = _
    rw [List.getElem?_take]
    simp [hk, List.getElem?_drop]
  · intro h
    show ((sortIssues p.sort (issues.filter (matchesPlan p))).drop
        p.offset).take p.limit = []
    have hlen : (sortIssues p.sort (issues.filter (matchesPlan p))).length
        ≤ p.offset := by
      rw [sortIssues_length]; exact h
    rw [List.drop_eq_nil_of_le hlen, List.take_nil]

/-- Witness for C2 at a concrete input: a one-issue set with offset 7
yields an empty page, via the contract theorem. -/
theorem apply_pagination_contract_witness :
    (apply ⟨[1], "", "", "", "", "created_at", 2, 7⟩
      [⟨1, 1, "a", "", Status.open_, Priority.low, 1, none, 10⟩]).1 = [] :=
  (apply_pagination_contract _ _).2.2.2.2 (by decide)

/-- Claim C6: items that tie on the primary sort key appear in `id`
ascending order, for every sort parameter; in particular, when every issue
shares one priority, a `sort=priority` page is ordered by `id` ascending. -/
theorem apply_sort_tiebreak (p : QueryPlan) (issues : List Issue)
    (pr : Priority) :
    List.Pairwise
        (fun a b => sortKey p.sort a = sortKey p.sort b → a.id ≤ b.id)
        (apply p issues).1
      ∧ (p.sort = "priority" → (∀ i ∈ issues, i.priority = pr) →
          List.Pairwise (fun a b : Issue => a.id ≤ b.id)
            (apply p issues).1) := by
  have hsorted : List.Pairwise (issueRel p.sort) (apply p issues).1 :=
    (sortIssues_sorted p.sort (issues.filter (matchesPlan p))).sublist
      (apply_items_sublist p issues)
  have htie : List.Pairwise
      (fun a b => sortKey p.sort a = sortKey p.sort b → a.id ≤ b.id)
      (apply p issues).1 := by
    refine hsorted.imp ?_
    intro a b h
    simp only [issueRel, issueLe, decide_eq_true_eq] at h
    omega
  refine ⟨htie, fun hsort hall => ?_⟩
  refine List.Pairwise.imp_of_mem ?_ htie
  intro a b ha hb h
  apply h
  have hpa : a.priority = pr := hall a (mem_of_mem_apply_items ha)
  have hpb : b.priority = pr := hall b (mem_of_mem_apply_items hb)
  simp [sortKey, hsort, hpa, hpb]

/-- Witness for C6 at a concrete input: two issues of equal priority,
sorted by priority, come back ordered by id, via the tie-break theorem. -/
theorem apply_sort_tiebreak_witness :
    List.Pairwise (fun a b : Issue => a.id ≤ b.id)
      (apply ⟨[1], "", "", "", "", "priority", 10, 0⟩
        [⟨2, 1, "b", "", Status.open_, Priority.high, 1, none, 5⟩,
         ⟨1, 1, "a", "", Status.open_, Priority.high, 1, none, 9⟩]).1 :=
  (apply_sort_tiebreak _ _ Priority.high).2 rfl (by decide)

/-- Claim C7: the listing operation is deterministic — for equal plans and
equal (unchanged) issue sets, two invocations of `apply` return identical
items and identical totals. -/
theorem apply_deterministic (p₁ p₂ : QueryPlan)
    (issues₁ issues₂ : List Issue) (hp : p₁ = p₂) (hi : issues₁ = issues₂) :
    (apply p₁ issues₁).1 = (apply p₂ issues₂).1
      ∧ (apply p₁ issues₁).2 = (apply p₂ issues₂).2 := by
  subst hp; subst hi; exact ⟨rfl, rfl⟩

/-- Witness for C7 at a concrete input. -/
theorem apply_deterministic_witness :
    (apply ⟨[1], "", "open", "", "", "created_at", 10, 0⟩
        [⟨1, 1, "a", "", Status.open_, Priority.low, 1, none, 3⟩]).1
      = (apply ⟨[1], "", "open", "", "", "created_at", 10, 0⟩
        [⟨1, 1, "a", "", Status.open_, Priority.low, 1, none, 3⟩]).1
      ∧ (apply ⟨[1], "", "open", "", "", "created_at", 10, 0⟩
        [⟨1, 1, "a", "", Status.open_, Priority.low, 1, none, 3⟩]).2
      = (apply ⟨[1], "", "open", "", "", "created_at", 10, 0⟩
        [⟨1, 1, "a", "", Status.open_, Priority.low, 1, none, 3⟩]).2 :=
  apply_deterministic _ _ _ _ rfl rfl

/-! ## Frontend api client: query-string construction (`listIssues`) -/

/-- Embeds the `URLSearchParams` construction of `listIssues` in
`frontend/src/api.ts`: an entry is appended only when the value is
defined (`some`) and not the empty string. -/
def buildSearchParams (params : List (String × Option String)) :
    List (String × String) :=
  params.filterMap fun kv =>
    match kv.2 with
    | none => none
    | some v => if v = "" then none else some (kv.1, v)

/-- The parameter list `listIssues` passes to `buildSearchParams`,
with `limit`/`offset` already rendered to strings when present. -/
def listIssuesSearch (q status priority assignee sort : String)
    (limit offset : Option Nat) : List (String × String) :=
  buildSearchParams
    [("q", some q), ("status", some status), ("priority", some priority),
     ("assignee", some assignee), ("sort", some sort),
     ("limit", limit.map toString), ("offset", offset.map toString)]

/-- A pair appears in the built query string exactly when it appears in
the input with a defined, non-empty value. -/
lemma buildSearchParams_mem (params : List (String × Option String))
    (kv : String × String) :
    kv ∈ buildSearchParams params ↔
      ((kv.1, some kv.2) ∈ params ∧ kv.2 ≠ "") := by
  rcases kv with ⟨k', v'⟩
  simp only [buildSearchParams, List.mem_filterMap]
  constructor
  · rintro ⟨⟨k, v⟩, hx, hfx⟩
    rcases v with _ | v
    · simp at hfx
    · by_cases hv : v = ""
      · simp [hv] at hfx
      · simp only [if_neg hv, Option.some.injEq, Prod.mk.injEq] at hfx
        obtain ⟨rfl, rfl⟩ := hfx
        exact ⟨hx, hv⟩
  · rintro ⟨h1, h2⟩
    refine ⟨(k', some v'), h1, ?_⟩
    simp [h2]

/-- Claim C8: an empty assignee parameter is "no filter" — every issue
passes the assignee filter regardless of its assignee — while any
non-empty assignee parameter never matches an unassigned issue, so the
parameter cannot select strictly-unassigned issues; and the client omits
an empty assignee from the query string altogether. -/
theorem assignee_empty_means_no_filter
    (i : Issue) (a q status priority sort : String)
    (limit offset : Option Nat) :
    assigneeOk "" i = true
      ∧ (a ≠ "" → i.assigneeId = none → assigneeOk a i = false)
      ∧ (∀ kv ∈ listIssuesSearch q status priority "" sort limit offset,
          kv.1 ≠ "assignee") := by
  refine ⟨rfl, ?_, ?_⟩
  · intro ha hnone
    simp [assigneeOk, ha, hnone]
  · intro kv hkv
    obtain ⟨hmem, hne⟩ := (buildSearchParams_mem _ kv).mp hkv
    simp only [List.mem_cons, List.not_mem_nil, or_false,
      Prod.mk.injEq] at hmem
    rcases hmem with ⟨h1, h2⟩ | ⟨h1, h2⟩ | ⟨h1, h2⟩ | ⟨h1, h2⟩ |
        ⟨h1, h2⟩ | ⟨h1, h2⟩ | ⟨h1, h2⟩ <;>
      first
        | (simp only [Option.some.injEq] at h2; exact absurd h2 hne)
        | (rw [h1]; decide)

/-- Witness for C8 at a concrete input: an unassigned issue fails the
filter `assignee=7`, via the theorem. -/
theorem assignee_empty_means_no_filter_witness :
    assigneeOk "7"
      ⟨1, 1, "a", "", Status.open_, Priority.low, 1, none, 3⟩ = false :=
  (assignee_empty_means_no_filter
      ⟨1, 1, "a", "", Status.open_, Priority.low, 1, none, 3⟩
      "7" "" "" "" "created_at" none none).2.1 (by decide) rfl

/-! ## Frontend membership removal (`handleRemoveMember` in App.tsx) -/

/-- A membership record of the membership relation. -/
structure MembershipRec where
  projectId : Nat
  userId : Nat
  role : Role
deriving DecidableEq, Repr

/-- The observable outcome of `handleRemoveMember`. -/
inductive RemoveOutcome
  | noActiveProject
  | noUser
  | selfRemovalError (msg : String)
  | notConfirmed
  | removed (projectId userId : Nat)
deriving DecidableEq, Repr

/-- Embeds `handleRemoveMember` from `frontend/src/App.tsx`: it returns
early when no project or user is active, rejects the request outright when
the target is the caller themselves, asks for confirmation, and only then
issues the DELETE call. -/
def handleRemoveMember (activeProject : Option Nat) (user : Option Nat)
    (targetUserId : Nat) (confirmed : Bool) : RemoveOutcome :=
  match activeProject with
  | none => .noActiveProject
  | some pid =>
    match user with
    | none => .noUser
    | some uid =>
      if targetUserId = uid then .selfRemovalError "You cannot remove yourself."
      else if !confirmed then .notConfirmed
      else .removed pid targetUserId

/-- Effect of an outcome on the membership relation: only a `removed`
outcome deletes the matching membership rows. -/
def applyRemoveOutcome (ms : List MembershipRec) :
    RemoveOutcome → List MembershipRec
  | .removed pid uid =>
    ms.filter fun m =>
      !(Decidable.decide (m.projectId = pid) &&
        Decidable.decide (m.userId = uid))
  | _ => ms

/-- Number of maintainers a project has in the membership relation. -/
def maintainerCount (ms : List MembershipRec) (pid : Nat) : Nat :=
  (ms.filter fun m =>
    Decidable.decide (m.projectId = pid) &&
      Decidable.decide (m.role = Role.maintainer)).length

/-- Claim C9: a maintainer's request to remove their own membership is
rejected when the removal would leave the project with zero maintainers,
and the membership relation is unchanged by the rejected request.  (The
code rejects every self-removal, hence in particular these.) -/
theorem self_removal_rejected (ms : List MembershipRec)
    (pid uid : Nat) (confirmed : Bool)
    (_hmaint : MembershipRec.mk pid uid Role.maintainer ∈ ms)
    (_hlast : maintainerCount
      (applyRemoveOutcome ms (RemoveOutcome.removed pid uid)) pid = 0) :
    handleRemoveMember (some pid) (some uid) uid confirmed
        = RemoveOutcome.selfRemovalError "You cannot remove yourself."
      ∧ applyRemoveOutcome ms
          (handleRemoveMember (some pid) (some uid) uid confirmed) = ms := by
  have h : handleRemoveMember (some pid) (some uid) uid confirmed
      = RemoveOutcome.selfRemovalError "You cannot remove yourself." := by
    simp [handleRemoveMember]
  exact ⟨h, by rw [h]; rfl⟩

/-- Witness for C9 at a concrete input: user 7 is the sole maintainer of
project 1 and their self-removal is rejected with the relation intact. -/
theorem self_removal_rejected_witness :
    handleRemoveMember (some 1) (some 7) 7 true
        = RemoveOutcome.selfRemovalError "You cannot remove yourself."
      ∧ applyRemoveOutcome [MembershipRec.mk 1 7 Role.maintainer]
          (handleRemoveMember (some 1) (some 7) 7 true)
        = [MembershipRec.mk 1 7 Role.maintainer] :=
  self_removal_rejected [MembershipRec.mk 1 7 Role.maintainer] 1 7 true
    (by decide) (by decide)

/-! ## Frontend api client: `apiFetch` and `ApiError` -/

/-- The `error` member of the error envelope, when present in the parsed
body: its optional `message` and `details` members. -/
structure ErrorEnvelope where
  message : Option String
  details : Option String
deriving DecidableEq, Repr

/-- An abstraction of a parsed JSON document: the raw text it came from
and its `error` member, if any. -/
structure JsonBody where
  raw : String
  error : Option ErrorEnvelope
deriving DecidableEq, Repr

/-- An HTTP response as `apiFetch` observes it: the `ok` flag, status,
status text and the body (`none` when the body text is not valid JSON, so
that `response.json()` rejects). -/
structure HttpResponse where
  ok : Bool
  status : Nat
  statusText : String
  body : Option JsonBody
deriving DecidableEq, Repr

/-- What the `apiFetch` promise does: resolve with a parsed body, reject
with an `ApiError(message, status, details)`, or reject with the JSON
parse error of a successful response. -/
inductive FetchResult
  | success (value : JsonBody)
  | apiError (message : String) (status : Nat) (details : Option String)
  | jsonFailure
deriving DecidableEq, Repr

/-- The empty object `apiFetch` resolves with on a 204 response. -/
def emptyBody : JsonBody := ⟨"", none⟩

/-- Embeds `apiFetch` from `frontend/src/api.ts`.  On a non-ok response it
starts from the message `Request failed`, overwrites message and details
from `data.error` when the body parses as JSON and `data?.error?.message`
is truthy (a non-empty string), falls back to the status text only when
the body is not valid JSON, and throws `ApiError`.  On an ok response it
returns an empty object for status 204 and otherwise parses the body. -/
def apiFetch (r : HttpResponse) : FetchResult :=
  if r.ok then
    if r.status = 204 then .success emptyBody
    else
      match r.body with
      | some d => .success d
      | none => .jsonFailure
  else
    match r.body with
    | none => .apiError r.statusText r.status none
    | some d =>
      match d.error with
      | some env =>
        match env.message with
        | some m =>
          if m = "" then .apiError "Request failed" r.status none
          else .apiError m r.status env.details
        | none => .apiError "Request failed" r.status none
      | none => .apiError "Request failed" r.status none

/-- The non-empty `error.message` of a parsed body, if any. -/
def envMessage (d : JsonBody) : Option String :=
  match d.error with
  | some env =>
    match env.message with
    | some m => if m = "" then none else some m
    | none => none
  | none => none

/-- Claim C10 counterexample: a non-ok response whose body is valid JSON
(`null`) but not an error envelope produces the generic message
`Request failed`, not the status text, contradicting the claim's fallback
clause at this input. -/
theorem apiFetch_statusText_counterexample :
    apiFetch ⟨false, 500, "Internal Server Error", some ⟨"null", none⟩⟩
        = FetchResult.apiError "Request failed" 500 none
      ∧ apiFetch ⟨false, 500, "Internal Server Error", some ⟨"null", none⟩⟩
        ≠ FetchResult.apiError "Internal Server Error" 500 none := by
  exact ⟨rfl, by decide⟩

/-- Claim C10 (amended): `apiFetch` rejects with an `ApiError` carrying
the response's HTTP status if and only if `ok` is false; the message and
details come from the body's `error.message`/`error.details` whenever the
body parses as JSON with a non-empty `error.message`; the message falls
back to the status text when the body is not valid JSON, and to the
generic `Request failed` when the body is JSON without such a message;
a 204 response resolves with an empty object without parsing a body, and
any other ok response resolves with the parsed JSON body. -/
theorem apiFetch_spec (r : HttpResponse) :
    ((∃ m s d, apiFetch r = FetchResult.apiError m s d) ↔ r.ok = false)
      ∧ (∀ m s d, apiFetch r = FetchResult.apiError m s d → s = r.status)
      ∧ (r.ok = false → ∀ d env m, r.body = some d → d.error = some env →
          env.message = some m → m ≠ "" →
          apiFetch r = FetchResult.apiError m r.status env.details)
      ∧ (r.ok = false → r.body = none →
          apiFetch r = FetchResult.apiError r.statusText r.status none)
      ∧ (r.ok = false → ∀ d, r.body = some d → envMessage d = none →
          apiFetch r = FetchResult.apiError "Request failed" r.status none)
      ∧ (r.ok = true → r.status = 204 →
          apiFetch r = FetchResult.success emptyBody)
      ∧ (r.ok = true → r.status ≠ 204 → ∀ d, r.body = some d →
          apiFetch r = FetchResult.success d) := by
  obtain ⟨ok, status, statusText, body⟩ := r
  refine ⟨?_, ?_, ?_, ?_, ?_, ?_, ?_⟩
  · constructor
    · rintro ⟨m, s, d, h⟩
      cases ok
      · rfl
      · rcases body with _ | b
        · simp [apiFetch] at h
          split at h <;> simp_all
        · simp [apiFetch] at h
          split at h <;> simp_all
    · intro hok
      subst hok
      rcases body with _ | b
      · exact ⟨statusText, status, none, rfl⟩
      · rcases b with ⟨raw, _ | env⟩
        · exact ⟨"Request failed", status, none, rfl⟩
        · rcases env with ⟨_ | m, details⟩
          · exact ⟨"Request failed", status, none, rfl⟩
          · by_cases hm : m = ""
            · exact ⟨"Request failed", status, none, by simp [apiFetch, hm]⟩
            · exact ⟨m, status, details, by simp [apiFetch, hm]⟩
  · intro m s d h
    cases ok
    · rcases body with _ | b
      · simp [apiFetch] at h
        exact h.2.1.symm
      · rcases b with ⟨raw, _ | env⟩
        · simp [apiFetch] at h
          exact h.2.1.symm
        · rcases env with ⟨_ | m', details⟩
          · simp [apiFetch] at h
            exact h.2.1.symm
          · by_cases hm : m' = "" <;> simp [apiFetch, hm] at h <;>
              exact h.2.1.symm
    · rcases body with _ | b <;> simp [apiFetch] at h <;>
        split at h <;> simp_all
  · rintro hok d env m hbody herr hmsg hne
    subst hok hbody
    simp [apiFetch, herr, hmsg, hne]
  · rintro hok hbody
    subst hok hbody
    rfl
  · rintro hok d hbody hmsg
    subst hok hbody
    rcases d with ⟨raw, _ | env⟩
    · rfl
    · rcases env with ⟨_ | m, details⟩
      · rfl
      · simp only [envMessage] at hmsg
        by_cases hm : m = ""
        · simp [apiFetch, hm]
        · simp [hm] at hmsg
  · rintro hok h204
    subst hok h204
    rfl
  · rintro hok h204 d hbody
    subst hok hbody
    simp [apiFetch, h204]

/-- Witness for the amended C10 at a concrete input: a 403 response with
an error envelope rejects with its message, status and details. -/
theorem apiFetch_spec_witness :
    apiFetch ⟨false, 403, "Forbidden",
        some ⟨"envelope", some ⟨some "Maintainer role required", some "role"⟩⟩⟩
      = FetchResult.apiError "Maintainer role required" 403 (some "role") :=
  (apiFetch_spec ⟨false, 403, "Forbidden",
      some ⟨"envelope", some ⟨some "Maintainer role required", some "role"⟩⟩⟩
    ).2.2.1 rfl _ _ _ rfl rfl rfl (by decide)

/-! ## Guardrail Pipeline: rate limiter -/

/-- A token bucket's mutable state: the remaining tokens (a rational, as
refill can add fractional amounts). -/
structure Bucket where
  tokens : ℚ
deriving DecidableEq

/-- Outcome of one rate-limited attempt. -/
inductive RateDecision
  | allowed
  | denied (code : String) (retryAfter : ℚ)
deriving DecidableEq

/-- Modelled from the spec: the backend token-bucket rate limiter is not
among the available sources; this transcribes spec section 4.3.  On each
attempt the bucket refills to `min C (tokens + elapsed·R)`; with at least
one token the attempt consumes one and is allowed, otherwise it is denied
with code `rate_limited` and a retry-after estimate of `(1 − tokens)/R`
seconds. -/
def rateAttempt (C R elapsed : ℚ) (b : Bucket) : RateDecision × Bucket :=
  let t := min C (b.tokens + elapsed * R)
  if 1 ≤ t then (.allowed, ⟨t - 1⟩)
  else (.denied "rate_limited" ((1 - t) / R), ⟨t⟩)

/-- A burst of `n` back-to-back attempts (no refill interval elapses). -/
def runAttempts (C R : ℚ) : Nat → Bucket → List RateDecision
  | 0, _ => []
  | n + 1, b =>
    (rateAttempt C R 0 b).1 :: runAttempts C R n (rateAttempt C R 0 b).2

/-- One unfolding step of a burst. -/
lemma runAttempts_succ (C R : ℚ) (n : Nat) (b : Bucket) :
    runAttempts C R (n + 1) b
      = (rateAttempt C R 0 b).1
          :: runAttempts C R n (rateAttempt C R 0 b).2 := rfl

/-- A burst against a bucket holding `k ≤ C` tokens allows exactly the
first `k` attempts and then denies with retry-after `1/R`. -/
lemma runAttempts_burst (C : Nat) (R : ℚ) :
    ∀ k : Nat, k ≤ C →
      runAttempts (C : ℚ) R (k + 1) ⟨(k : ℚ)⟩
        = List.replicate k RateDecision.allowed
            ++ [RateDecision.denied "rate_limited" (1 / R)] := by
  intro k
  induction k with
  | zero =>
    intro _
    have hmin : min (C : ℚ) ((0 : ℚ) + 0 * R) = 0 := by
      rw [min_eq_right] <;> simp
    have hd : ¬ (1 : ℚ) ≤ 0 := by norm_num
    have hatt : rateAttempt (C : ℚ) R 0 ⟨((0 : Nat) : ℚ)⟩
        = (RateDecision.denied "rate_limited" (1 / R), ⟨0⟩) := by
      simp only [rateAttempt, Nat.cast_zero, hmin, if_neg hd]
      norm_num
    rw [runAttempts_succ, hatt]
    simp [runAttempts]
  | succ n ih =>
    intro hle
    have hmin : min (C : ℚ) (((n : ℚ) + 1) + 0 * R) = (n : ℚ) + 1 := by
      rw [min_eq_right]
      · ring_nf
      · have : ((n : ℚ) + 1) ≤ (C : ℚ) := by exact_mod_cast hle
        linarith
    have h1 : (1 : ℚ) ≤ (n : ℚ) + 1 := by
      have := Nat.cast_nonneg (α := ℚ) n
      linarith
    have hatt : rateAttempt (C : ℚ) R 0 ⟨((n + 1 : Nat) : ℚ)⟩
        = (RateDecision.allowed, ⟨(n : ℚ)⟩) := by
      have hsub : ((n + 1 : Nat) : ℚ) = (n : ℚ) + 1 := by push_cast; ring
      simp only [rateAttempt, hsub, hmin, if_pos h1]
      norm_num
    have hrec := ih (Nat.le_of_succ_le hle)
    rw [runAttempts_succ, hatt]
    simp only [hrec]
    rfl

/-- Claim C3: each attempt refills to `min(C, tokens + elapsed·R)` and is
allowed (consuming one token) exactly when the refilled level reaches 1,
denied with code `rate_limited` and retry-after `(1 − tokens)/R`
otherwise; and from a full bucket of capacity `C` with no refill elapsing,
exactly the first `C` attempts succeed and the `(C+1)`-th is denied. -/
theorem token_bucket_spec (C R elapsed : ℚ) (b : Bucket) (Cn : Nat) :
    (1 ≤ min C (b.tokens + elapsed * R) →
        rateAttempt C R elapsed b
          = (RateDecision.allowed, ⟨min C (b.tokens + elapsed * R) - 1⟩))
      ∧ (min C (b.tokens + elapsed * R) < 1 →
        rateAttempt C R elapsed b
          = (RateDecision.denied "rate_limited"
              ((1 - min C (b.tokens + elapsed * R)) / R),
             ⟨min C (b.tokens + elapsed * R)⟩))
      ∧ runAttempts (Cn : ℚ) R (Cn + 1) ⟨(Cn : ℚ)⟩
          = List.replicate Cn RateDecision.allowed
              ++ [RateDecision.denied "rate_limited" (1 / R)] := by
  refine ⟨?_, ?_, runAttempts_burst Cn R Cn le_rfl⟩
  · intro h
    simp [rateAttempt, h]
  · intro h
    rw [rateAttempt]
    simp only [if_neg (not_le.mpr h)]

/-- Witness for C3 at a concrete input: a full bucket of capacity 2 allows
two attempts and denies the third, and a single attempt on a bucket with
half a token is denied with a one-eighth-second retry estimate at refill
rate 4. -/
theorem token_bucket_spec_witness :
    runAttempts (2 : ℚ) 4 3 ⟨(2 : ℚ)⟩
        = [RateDecision.allowed, RateDecision.allowed,
           RateDecision.denied "rate_limited" (1 / 4)]
      ∧ rateAttempt 2 4 0 ⟨1 / 2⟩
        = (RateDecision.denied "rate_limited" (1 / 8), ⟨1 / 2⟩) := by
  constructor
  · have h := (token_bucket_spec 2 4 0 ⟨(2 : ℚ)⟩ 2).2.2
    norm_num at h ⊢
    exact h
  · have h := (token_bucket_spec 2 4 0 ⟨1 / 2⟩ 0).2.1 (by norm_num)
    norm_num at h ⊢
    exact h

/-! ## Audit Recorder -/

/-- An audit log entry: sequence number, actor, action kind, target,
outcome (true = allowed) and timestamp. -/
structure AuditLogEntry where
  seq : Nat
  actor : Nat
  action : String
  target : Nat
  outcomeAllowed : Bool
  timestamp : Nat
deriving DecidableEq, Repr

/-- The payload of one `record` call (everything but the sequence
number, which the recorder assigns). -/
structure AuditCall where
  actor : Nat
  action : String
  target : Nat
  outcomeAllowed : Bool
  timestamp : Nat
deriving DecidableEq, Repr

/-- Modelled from the spec: the Audit Recorder's state — a single owned
counter plus the append-only list of entries. -/
structure Recorder where
  nextSeq : Nat
  entries : List AuditLogEntry
deriving DecidableEq, Repr

/-- A fresh recorder instance. -/
def Recorder.init : Recorder := ⟨0, []⟩

/-- Modelled from the spec: `record` assigns the next sequence number
atomically at append time and appends the entry; nothing is ever mutated
or deleted afterwards. -/
def record (r : Recorder) (c : AuditCall) : AuditLogEntry × Recorder :=
  let e : AuditLogEntry :=
    ⟨r.nextSeq, c.actor, c.action, c.target, c.outcomeAllowed, c.timestamp⟩
  (e, ⟨r.nextSeq + 1, r.entries ++ [e]⟩)

/-- Runs a sequence of `record` calls against a recorder. -/
def runRecorder (r : Recorder) : List AuditCall → Recorder
  | [] => r
  | c :: cs => runRecorder (record r c).2 cs

/-- The sequence numbers appended by a run continue the counter with
consecutive values, and the run only ever appends. -/
lemma runRecorder_entries (cs : List AuditCall) :
    ∀ r : Recorder,
      (runRecorder r cs).entries.map AuditLogEntry.seq
          = r.entries.map AuditLogEntry.seq
              ++ List.range' r.nextSeq cs.length
        ∧ ∃ tail, (runRecorder r cs).entries = r.entries ++ tail := by
  induction cs with
  | nil =>
    intro r
    exact ⟨by simp [runRecorder], [], by simp [runRecorder]⟩
  | cons c cs ih =>
    intro r
    obtain ⟨hmap, tail, htail⟩ := ih (record r c).2
    constructor
    · rw [runRecorder, hmap]
      simp [record, List.range'_succ]
    · refine ⟨(record r c).1 :: tail, ?_⟩
      rw [runRecorder, htail]
      simp [record, List.append_assoc]

/-- Claim C4: over any sequence of `record` calls on one recorder
instance, the produced sequence numbers are exactly `0, 1, 2, …` —
strictly increasing and gap-free — no number is ever reused, and the
entries already written are preserved unchanged (every later state only
appends). -/
theorem audit_sequence_spec (calls : List AuditCall) :
    (runRecorder Recorder.init calls).entries.map AuditLogEntry.seq
        = List.range calls.length
      ∧ ((runRecorder Recorder.init calls).entries.map
          AuditLogEntry.seq).Pairwise (· < ·)
      ∧ ((runRecorder Recorder.init calls).entries.map
          AuditLogEntry.seq).Nodup
      ∧ (∀ (r : Recorder) (cs : List AuditCall), ∃ tail,
          (runRecorder r cs).entries = r.entries ++ tail) := by
  have hmap := (runRecorder_entries calls Recorder.init).1
  have hrange : (runRecorder Recorder.init calls).entries.map
      AuditLogEntry.seq = List.range calls.length := by
    rw [hmap]
    simp [Recorder.init, List.range_eq_range']
  refine ⟨hrange, ?_, ?_, fun r cs => (runRecorder_entries cs r).2⟩
  · rw [hrange]
    exact List.pairwise_lt_range calls.length
  · rw [hrange]
    exact List.nodup_range calls.length

/-- Witness for C4 at a concrete input: two recorded calls produce the
sequence numbers `[0, 1]`, via the sequencing theorem. -/
theorem audit_sequence_spec_witness :
    (runRecorder Recorder.init
        [⟨1, "issue.update", 10, true, 100⟩,
         ⟨2, "member.remove", 11, false, 101⟩]).entries.map
      AuditLogEntry.seq = List.range 2 :=
  (audit_sequence_spec
    [⟨1, "issue.update", 10, true, 100⟩,
     ⟨2, "member.remove", 11, false, 101⟩]).1

/-! ## Guardrail Pipeline: content scanner -/

/-- Category of a guardrail match: PII-like or script-like content. -/
inductive ScanCategory
  | pii
  | script
deriving DecidableEq, Repr

/-- Result of scanning a free-text field. -/
inductive ScanResult
  | accepted
  | rejected (code : String) (category : ScanCategory)
deriving DecidableEq, Repr

/-- Modelled from the spec: script-like substrings — a `<script` tag or a
`javascript:` URL scheme. -/
def containsScriptMarker (text : String) : Bool :=
  containsSub text "<script" || containsSub text "javascript:"

/-- Modelled from the spec: a coarse detector for email-address-shaped
substrings, standing in for the PII rules. -/
def containsEmailLike (text : String) : Bool :=
  containsSub text "@" && containsSub text "."

/-- Modelled from the spec: the stateless content scanner rejects with
code `content_rejected` and the matched category; it never rewrites the
content. -/
def scanContent (text : String) : ScanResult :=
  if containsScriptMarker text then .rejected "content_rejected" .script
  else if containsEmailLike text then .rejected "content_rejected" .pii
  else .accepted

/-- Persistent state threaded through a mutating request: the stored
comment bodies and the audit entries recorded for successful mutations. -/
structure Store where
  comments : List String
  auditTrail : List String
deriving DecidableEq, Repr

/-- Outcome of a comment submission. -/
inductive SubmitResult
  | ok
  | contentRejected (code : String) (category : ScanCategory)
deriving DecidableEq, Repr

/-- Modelled from the spec: a mutating comment request first passes the
content scanner; on rejection it short-circuits before any persistence or
audit-of-success, on acceptance the body is stored unredacted and a
success audit entry is written. -/
def submitComment (st : Store) (body : String) : SubmitResult × Store :=
  match scanContent body with
  | .rejected code cat => (.contentRejected code cat, st)
  | .accepted =>
    (.ok, ⟨st.comments ++ [body], st.auditTrail ++ ["comment.create:allowed"]⟩)

/-- Claim C5: content containing the substring `<script` is rejected with
code `content_rejected` and category `script`; the request leaves the
store untouched — the content is not redacted into place, the comment is
not persisted, and no audit success entry is written. -/
theorem script_content_rejected (text body : String) (st : Store) :
    (containsSub text "<script" = true →
        scanContent text = ScanResult.rejected "content_rejected"
          ScanCategory.script)
      ∧ (containsSub body "<script" = true →
        submitComment st body
          = (SubmitResult.contentRejected "content_rejected"
              ScanCategory.script, st)) := by
  have hscan : ∀ t : String, containsSub t "<script" = true →
      scanContent t = ScanResult.rejected "content_rejected"
        ScanCategory.script := by
    intro t ht
    have hmark : containsScriptMarker t = true := by
      simp [containsScriptMarker, ht]
    simp [scanContent, hmark]
  refine ⟨hscan text, fun hb => ?_⟩
  rw [submitComment, hscan body hb]

/-- Witness for C5 at the concrete input of the scenario: a comment body
`<script>alert(1)</script>` is rejected with category `script` and the
store (no comments, no audit entries) is unchanged. -/
theorem script_content_rejected_witness :
    submitComment ⟨[], []⟩ "<script>alert(1)</script>"
      = (SubmitResult.contentRejected "content_rejected"
          ScanCategory.script, ⟨[], []⟩) :=
  (script_content_rejected "" "<script>alert(1)</script>" ⟨[], []⟩).2
    (by decide)

end IssueHub
